import Mathlib

/-!
Verification of the VITALS interactive point-sampling notebooks.

The development embeds the point-exploration logic of the VITALS
notebooks (the `PointDraw` point store configured with
`num_objects=POINT_LIMIT`, the `click_spectra` render functions of the
two notebook variants, the nearest-neighbour sampler, the CSV export
rows, `gamma_adjust`, `create_gradient` / `interpolate_hex`, and
`interactive_click`) and proves or refutes the specification's claims
about them.
-/

namespace Vitals

/-! ## Point Store

The notebooks configure a holoviews `PointDraw` stream with
`num_objects = POINT_LIMIT` (10).  The add/move/capacity behaviour is
implemented inside the external holoviews library, not in this
repository, so it is modelled from the specification. -/

/-- A sample point: stable identifier plus a coordinate pair. -/
structure SamplePoint where
  id : Nat
  x : ℚ
  y : ℚ
deriving DecidableEq, Repr

/-- The point store is the ordered list of active sample points. -/
abbrev PointStore := List SamplePoint

/-- Capacity passed as `num_objects` to the PointDraw stream. -/
def POINT_LIMIT : Nat := 10

/-- Does the point match the given coordinate pair? -/
def matchesCoords (x y : ℚ) (p : SamplePoint) : Bool :=
  p.x == x && p.y == y

/-- Next unused identifier for a freshly created point. -/
def nextId (s : PointStore) : Nat :=
  s.foldl (fun m p => max m (p.id + 1)) 0

/-- Modelled from the spec: the `add_or_move(x, y)` operation of the
Point Store (the holoviews PointDraw behaviour, which is not part of
this repository's sources).  If the coordinate pair corresponds to an
existing marker being dragged, that point's coordinates are updated in
place (same identifier); otherwise, while capacity remains, a new point
with the next unused identifier is appended; at capacity the call is a
silent no-op. -/
def add_or_move (limit : Nat) (s : PointStore) (x y : ℚ) : PointStore :=
  if s.any (matchesCoords x y) then
    s.map (fun p => if matchesCoords x y p then { p with x := x, y := y } else p)
  else if s.length < limit then
    s ++ [⟨nextId s, x, y⟩]
  else
    s

/-- A session: fold a sequence of `add_or_move` calls over an initial
store. -/
def runSession (limit : Nat) (init : PointStore) (calls : List (ℚ × ℚ)) :
    PointStore :=
  calls.foldl (fun s c => add_or_move limit s c.1 c.2) init

/-- The initial store of the notebooks: a single centre point with
identifier 0. -/
def firstPoint (x0 y0 : ℚ) : PointStore := [⟨0, x0, y0⟩]

/-- Eleven clicks at pairwise distinct coordinates. -/
def elevenClicks : List (ℚ × ℚ) :=
  (List.range 11).map (fun i => ((i : ℚ), (i : ℚ)))

theorem add_or_move_length_le (limit : Nat) (s : PointStore) (x y : ℚ)
    (h : s.length ≤ limit) : (add_or_move limit s x y).length ≤ limit := by
  unfold add_or_move
  split
  · simpa using h
  · split
    · simpa using (by omega : s.length + 1 ≤ limit)
    · exact h

theorem runSession_length_le (limit : Nat) (calls : List (ℚ × ℚ))
    (init : PointStore) (h : init.length ≤ limit) :
    (runSession limit init calls).length ≤ limit := by
  induction calls generalizing init with
  | nil => exact h
  | cons c cs ih =>
      exact ih _ (add_or_move_length_le limit init c.1 c.2 h)

/-- C1: for every sequence of `add_or_move` calls made during one
session (starting from the single initial point), the Point Store never
holds more than `POINT_LIMIT = 10` points. -/
theorem pointStore_capacity_invariant (x0 y0 : ℚ) (calls : List (ℚ × ℚ)) :
    (runSession POINT_LIMIT (firstPoint x0 y0) calls).length ≤ POINT_LIMIT := by
  apply runSession_length_le
  simp [firstPoint, POINT_LIMIT]

/-- C2: at capacity, an `add_or_move` with coordinates that match no
existing marker is a silent no-op (the store is returned unchanged, so
nothing is added and nothing is evicted); and after eleven adds at
pairwise distinct coordinates starting from an empty store the
cardinality is exactly 10. -/
theorem add_at_capacity_noop (s : PointStore) (x y : ℚ)
    (hfull : s.length = POINT_LIMIT)
    (hnew : s.any (matchesCoords x y) = false) :
    add_or_move POINT_LIMIT s x y = s ∧
      (runSession POINT_LIMIT [] elevenClicks).length = POINT_LIMIT := by
  constructor
  · unfold add_or_move
    rw [hnew]
    simp [hfull]
  · decide

/-- A concrete full store of ten points at distinct coordinates. -/
def tenStore : PointStore :=
  (List.range 10).map (fun i => ⟨i, (i : ℚ), 0⟩)

theorem add_at_capacity_noop_witness :
    (tenStore.length = POINT_LIMIT ∧
      tenStore.any (matchesCoords 99 99) = false) ∧
    (add_or_move POINT_LIMIT tenStore 99 99 = tenStore ∧
      (runSession POINT_LIMIT [] elevenClicks).length = POINT_LIMIT) :=
  ⟨⟨by decide, by decide⟩,
    add_at_capacity_noop tenStore 99 99 (by decide) (by decide)⟩

/-- C4: calling `add_or_move` at the coordinates of an existing marker
is a move, not a creation: after adding a point at (10, 20), a second
`add_or_move` at (10, 20) leaves the store unchanged (same single point,
same identifier), so the cardinality remains 1. -/
theorem add_or_move_same_coords_is_move :
    (add_or_move POINT_LIMIT [] 10 20).length = 1 ∧
      add_or_move POINT_LIMIT (add_or_move POINT_LIMIT [] 10 20) 10 20 =
        add_or_move POINT_LIMIT [] 10 20 := by
  decide

/-! ## Gridded dataset and nearest-neighbour sampler

Embeds `emit_ds.sel(longitude=x, latitude=y, method="nearest")`:
independent nearest-neighbour index lookup along each spatial axis,
returning the full wavelength slice at that cell. -/

/-- The gridded dataset: spatial coordinate axes, the value axis, and
the reflectance cube indexed latitude-major (`reflectance[lat][lon]` is
the spectrum at that cell). -/
structure GriddedDataset where
  longitude : List ℚ
  latitude : List ℚ
  wavelengths : List ℚ
  reflectance : List (List (List ℚ))
deriving DecidableEq, Repr

/-- Index of the first minimal distance, scanning the remaining
distances from position `i` with current best index `best`. -/
def argminAux : List ℚ → Nat → Nat → ℚ → Nat
  | [], _, best, _ => best
  | d :: ds, i, best, bestd =>
      if d < bestd then argminAux ds (i + 1) i d
      else argminAux ds (i + 1) best bestd

/-- Index of the coordinate nearest to `q` (first minimiser, as
`np.argmin` over the distances). -/
def nearestIdx (cs : List ℚ) (q : ℚ) : Nat :=
  match cs.map (fun c => |c - q|) with
  | [] => 0
  | d :: ds => argminAux ds 1 0 d

/-- The Sampler: the wavelength slice at the nearest grid cell. -/
def sample (ds : GriddedDataset) (x y : ℚ) : List ℚ :=
  (ds.reflectance.getD (nearestIdx ds.latitude y) []).getD
    (nearestIdx ds.longitude x) []

theorem argminAux_lt (ds : List ℚ) (i best : Nat) (bd : ℚ) (h : best < i) :
    argminAux ds i best bd < i + ds.length := by
  induction ds generalizing i best bd with
  | nil => simpa using h
  | cons d ds ih =>
      simp only [argminAux, List.length_cons]
      split
      · have := ih (i + 1) i d (Nat.lt_succ_self i)
        omega
      · have := ih (i + 1) best bd (Nat.lt_succ_of_lt h)
        omega

theorem nearestIdx_lt (cs : List ℚ) (q : ℚ) (h : cs ≠ []) :
    nearestIdx cs q < cs.length := by
  cases cs with
  | nil => exact absurd rfl h
  | cons c cs =>
      have hb := argminAux_lt (cs.map (fun c => |c - q|)) 1 0 |c - q|
        Nat.zero_lt_one
      simp only [nearestIdx, List.map_cons, List.length_map,
        List.length_cons] at hb ⊢
      omega

/-- The state visible to one interactive session: the dataset plus the
point columns held by the stream. -/
structure Session where
  ds : GriddedDataset
  storeX : List ℚ
  storeY : List ℚ
  storeId : List ℤ
deriving DecidableEq, Repr

/-- One sampling call as it occurs in `click_spectra`: it reads the
dataset and returns the derived series together with the (untouched)
session state. -/
def sampleOp (x y : ℚ) (st : Session) : List ℚ × Session :=
  (sample st.ds x y, st)

/-- C6: the Sampler is a pure function of (coordinates, dataset): two
successive sampling calls with the same coordinates return the same
derived series, and a sampling call leaves the session state (dataset
and point columns) unchanged. -/
theorem sampler_pure (x y : ℚ) (st : Session) :
    (sampleOp x y st).1 = (sampleOp x y (sampleOp x y st).2).1 ∧
      (sampleOp x y st).2 = st :=
  ⟨rfl, rfl⟩

/-! ## The render operation `click_spectra`

Two variants exist in the repository: the EMIT+ECOSTRESS notebook
(part_004) guards against empty data with a fallback branch, while the
Exploring_EMIT_L2A_RFL notebook builds the overlay directly from the
zipped coordinate columns.  Both enumerate the coordinate list and give
curve `i` the label `str(i)`, write `i` into the id column at position
`i`, and draw it with the next colour of the Category20 cycle. -/

/-- Python exception kinds relevant to the embedded code. -/
inductive PyErr where
  | nameError
  | typeError
  | valueError
  | zeroDivisionError
deriving DecidableEq, Repr

/-- The columns of the PointDraw stream data dictionary. -/
structure Columns where
  x : List ℚ
  y : List ℚ
  id : List ℤ
deriving DecidableEq, Repr

/-- Python `not any(len(d) for d in data.values())`. -/
def allEmpty (d : Columns) : Bool :=
  d.x.isEmpty && d.y.isEmpty && d.id.isEmpty

/-- A rendered curve of the overlay: the sampled series, the resolved
colour and the legend label. -/
structure Curve where
  series : List ℚ
  color : String
  label : String
deriving DecidableEq, Repr

/-- The bokeh Category20 palette backing `hv.Cycle('Category20')`. -/
def category20 : List String :=
  ["#1f77b4", "#aec7e8", "#ff7f0e", "#ffbb78", "#2ca02c",
   "#98df8a", "#d62728", "#ff9896", "#9467bd", "#c5b0d5",
   "#8c564b", "#c49c94", "#e377c2", "#f7b6d2", "#7f7f7f",
   "#c7c7c7", "#bcbd22", "#dbdb8d", "#17becf", "#9edae5"]

/-- Modelled from the spec: the cycling colour assignment (resolved by
the external holoviews library, which hands the palette colours to the
overlay's elements in order, wrapping around). -/
def cycleColor (i : Nat) : String :=
  category20.getD (i % category20.length) ""

/-- The `for i, coords in enumerate(coordinates)` loop body of
`click_spectra`: curve `i` samples the dataset at its coordinates and is
labelled with the running index. -/
def renderCurvesFrom (ds : GriddedDataset) : Nat → List (ℚ × ℚ) → List Curve
  | _, [] => []
  | i, c :: cs =>
      ⟨sample ds c.1 c.2, cycleColor i, toString i⟩ ::
        renderCurvesFrom ds (i + 1) cs

/-- The curves of the overlay built by `click_spectra`. -/
def renderCurves (ds : GriddedDataset) (coords : List (ℚ × ℚ)) :
    List Curve :=
  renderCurvesFrom ds 0 coords

/-- The effect of the `points_stream.data["id"][i] = i` assignments:
positions below `n` now hold their own index. -/
def writeIds (ids : List ℤ) (n : Nat) : List ℤ :=
  (List.range ids.length).map (fun i => if i < n then (i : ℤ) else ids.getD i 0)

/-- The part_004 variant of `click_spectra`.  When the stream data is
`None` or all columns are empty, the fallback branch evaluates
`clicked_points[0][0]`, and `clicked_points` is defined nowhere in that
notebook, so Python raises `NameError` (were it defined, the call
`coordinates.append(a, b)` would raise `TypeError`: `list.append` takes
one argument).  Otherwise the zipped coordinates are rendered and the
id column is overwritten with positions. -/
def click_spectra_p4 (ds : GriddedDataset) (data : Option Columns) :
    Except PyErr (List Curve × List ℤ) :=
  match data with
  | none => .error PyErr.nameError
  | some d =>
      if allEmpty d then .error PyErr.nameError
      else
        .ok (renderCurves ds (d.x.zip d.y),
          writeIds d.id (d.x.zip d.y).length)

/-- The Exploring_EMIT_L2A_RFL variant of `click_spectra`: no guard;
the overlay is built directly from the zipped coordinate columns. -/
def click_spectra_explore (ds : GriddedDataset) (d : Columns) :
    List Curve × List ℤ :=
  (renderCurves ds (d.x.zip d.y), writeIds d.id (d.x.zip d.y).length)

theorem renderCurvesFrom_get? (ds : GriddedDataset) (cs : List (ℚ × ℚ))
    (j k : Nat) :
    (renderCurvesFrom ds j cs).get? k =
      (cs.get? k).map
        (fun c => ⟨sample ds c.1 c.2, cycleColor (j + k), toString (j + k)⟩) := by
  induction cs generalizing j k with
  | nil => simp [renderCurvesFrom]
  | cons c cs ih =>
      cases k with
      | zero => simp [renderCurvesFrom]
      | succ k =>
          have h2 := ih (j + 1) k
          have hjk : j + 1 + k = j + (k + 1) := by omega
          rw [hjk] at h2
          simpa [renderCurvesFrom] using h2

/-- An explicitly small concrete dataset used in counterexamples. -/
def dsEx : GriddedDataset :=
  { longitude := [0, 1]
    latitude := [0, 1]
    wavelengths := [5, 6]
    reflectance :=
      [[[1/10, 2/10], [3/10, 4/10]],
       [[5/10, 6/10], [7/10, 8/10]]] }

/-- C3 counterexample: removing the other point changes the colour of
the remaining point's curve.  With two points (ids 0 and 1), the curve
of the point with id 1 at (1, 1) is drawn in the palette's second
colour; after removing the other point, the same point's curve is drawn
in the palette's first colour. -/
theorem click_color_position_counterexample :
    ((click_spectra_explore dsEx ⟨[0, 1], [0, 1], [0, 1]⟩).1.getD 1
        ⟨[], "", ""⟩).color = "#aec7e8" ∧
      ((click_spectra_explore dsEx ⟨[1], [1], [1]⟩).1.getD 0
        ⟨[], "", ""⟩).color = "#1f77b4" ∧
      ("#aec7e8" : String) ≠ "#1f77b4" := by
  decide

/-- C3 amended: the colour the render assigns to a curve is a function
of the curve's position in the rendered list, cycling through the
palette, and is independent of the point's stored identifier. -/
theorem click_color_keyed_by_position (ds : GriddedDataset)
    (coords : List (ℚ × ℚ)) (i : Nat) (h : i < coords.length) :
    ((renderCurves ds coords).get? i).map Curve.color =
        some (cycleColor i) ∧
      ((renderCurves ds coords).get? i).map Curve.label =
        some (toString i) := by
  rw [renderCurves, renderCurvesFrom_get?]
  rw [List.get?_eq_get h]
  simp

theorem click_color_keyed_by_position_witness :
    (1 < ([((0 : ℚ), (0 : ℚ)), (1, 1)] : List (ℚ × ℚ)).length) ∧
      (((renderCurves dsEx [(0, 0), (1, 1)]).get? 1).map Curve.color =
          some (cycleColor 1) ∧
        ((renderCurves dsEx [(0, 0), (1, 1)]).get? 1).map Curve.label =
          some (toString 1)) :=
  ⟨by decide,
    click_color_keyed_by_position dsEx [(0, 0), (1, 1)] 1 (by decide)⟩

/-- C5 counterexample: in the part_004 notebook, rendering with an
empty Point Store does not return an empty overlay; the fallback branch
raises (undefined name `clicked_points`; and `list.append` called with
two arguments). -/
theorem click_spectra_empty_raises :
    click_spectra_p4 dsEx (some ⟨[], [], []⟩) =
      Except.error PyErr.nameError := rfl

/-- C5 amended: with an empty Point Store, the Exploring_EMIT_L2A_RFL
variant of `click_spectra` returns an empty overlay (no curves), but
the part_004 variant raises an error (its empty-data fallback branch
references an undefined name and misuses `list.append`). -/
theorem click_spectra_empty_behaviour (ds : GriddedDataset) (d : Columns)
    (h : allEmpty d = true) :
    (click_spectra_explore ds ⟨[], [], []⟩).1 = [] ∧
      click_spectra_p4 ds (some d) = Except.error PyErr.nameError ∧
      click_spectra_p4 ds none = Except.error PyErr.nameError := by
  refine ⟨rfl, ?_, rfl⟩
  simp [click_spectra_p4, h]

theorem click_spectra_empty_behaviour_witness :
    (allEmpty ⟨[], [], []⟩ = true) ∧
      ((click_spectra_explore dsEx ⟨[], [], []⟩).1 = [] ∧
        click_spectra_p4 dsEx (some ⟨[], [], []⟩) =
          Except.error PyErr.nameError ∧
        click_spectra_p4 dsEx none = Except.error PyErr.nameError) :=
  ⟨by decide, click_spectra_empty_behaviour dsEx ⟨[], [], []⟩ (by decide)⟩

/-! ## A recursive all-elements predicate

Used so that instantiated statements stay free of bound variables. -/

/-- Every element of the list satisfies `p`, as a recursive
conjunction. -/
def ListAll {α : Type} (p : α → Prop) : List α → Prop
  | [] => True
  | a :: as => p a ∧ ListAll p as

def decListAll {α : Type} (p : α → Prop) [DecidablePred p] :
    (l : List α) → Decidable (ListAll p l)
  | [] => .isTrue trivial
  | _ :: as => @instDecidableAnd _ _ _ (decListAll p as)

instance {α : Type} (p : α → Prop) [DecidablePred p] (l : List α) :
    Decidable (ListAll p l) :=
  decListAll p l

theorem listAll_map {α β : Type} (f : α → β) (p : β → Prop) (l : List α)
    (h : ∀ a, p (f a)) : ListAll p (l.map f) := by
  induction l with
  | nil => trivial
  | cons a as ih => exact ⟨h a, ih⟩

theorem listAll_mem {α : Type} {p : α → Prop} {l : List α}
    (h : ListAll p l) {a : α} (ha : a ∈ l) : p a := by
  induction l with
  | nil => cases ha
  | cons b bs ih =>
      rcases List.mem_cons.mp ha with h1 | h1
      · exact h1 ▸ h.1
      · exact ih h.2 h1

/-! ## CSV export rows

Embeds the `rows` cell of the notebook: a header row, then one row per
zipped point carrying id, coordinates and the sampled spectrum. -/

/-- One cell of the Python `rows` list: the header holds strings, data
rows hold the integer id and float values. -/
inductive Cell where
  | str (s : String)
  | int (n : ℤ)
  | num (q : ℚ)
deriving DecidableEq, Repr

/-- The header row: labels for id, the two coordinates, then one label
per wavelength. -/
def csvHeader (wavelengths : List ℚ) : List Cell :=
  [Cell.str "id", Cell.str "x", Cell.str "y"] ++
    wavelengths.map (fun w => Cell.str (toString w))

/-- Python `zip` over three lists (truncates to the shortest). -/
def zip3 {α β γ : Type} : List α → List β → List γ → List (α × β × γ)
  | a :: as, b :: bs, c :: cs => (a, b, c) :: zip3 as bs cs
  | _, _, _ => []

/-- One data row: `[i, x, y] + list(spectra)`. -/
def pointRow (ds : GriddedDataset) (p : ℚ × ℚ × ℤ) : List Cell :=
  Cell.int p.2.2 :: Cell.num p.1 :: Cell.num p.2.1 ::
    (sample ds p.1 p.2.1).map Cell.num

/-- The full `rows` value: header first, then one row per point. -/
def export_rows (ds : GriddedDataset) (d : Columns) : List (List Cell) :=
  csvHeader ds.wavelengths :: (zip3 d.x d.y d.id).map (pointRow ds)

/-- Well-formedness of the cube: one row of cells per latitude, one
cell per longitude, one measurement per wavelength. -/
def dsWF (ds : GriddedDataset) : Prop :=
  ds.reflectance.length = ds.latitude.length ∧
    (∀ row ∈ ds.reflectance, row.length = ds.longitude.length) ∧
    (∀ row ∈ ds.reflectance, ∀ cell ∈ row,
      cell.length = ds.wavelengths.length)

instance (ds : GriddedDataset) : Decidable (dsWF ds) :=
  inferInstanceAs (Decidable (_ ∧ _ ∧ _))

theorem getD_mem {α : Type} (l : List α) (n : Nat) (d : α)
    (h : n < l.length) : l.getD n d ∈ l := by
  rw [List.getD_eq_getElem l d h]
  exact List.getElem_mem h

theorem sample_length (ds : GriddedDataset) (x y : ℚ) (hwf : dsWF ds)
    (hlon : ds.longitude ≠ []) (hlat : ds.latitude ≠ []) :
    (sample ds x y).length = ds.wavelengths.length := by
  obtain ⟨h1, h2, h3⟩ := hwf
  have hy : nearestIdx ds.latitude y < ds.reflectance.length := by
    rw [h1]; exact nearestIdx_lt _ _ hlat
  have hrow :
      ds.reflectance.getD (nearestIdx ds.latitude y) [] ∈ ds.reflectance :=
    getD_mem _ _ _ hy
  have hx : nearestIdx ds.longitude x <
      (ds.reflectance.getD (nearestIdx ds.latitude y) []).length := by
    rw [h2 _ hrow]; exact nearestIdx_lt _ _ hlon
  exact h3 _ hrow _ (getD_mem _ _ _ hx)

theorem zip3_length {α β γ : Type} (as : List α) (bs : List β)
    (cs : List γ) (hb : bs.length = as.length)
    (hc : cs.length = as.length) :
    (zip3 as bs cs).length = as.length := by
  induction as generalizing bs cs with
  | nil => cases bs <;> cases cs <;> simp [zip3]
  | cons a as ih =>
      cases bs with
      | nil => simp at hb
      | cons b bs =>
          cases cs with
          | nil => simp at hc
          | cons c cs =>
              simp only [zip3, List.length_cons] at *
              rw [ih bs cs (by omega) (by omega)]

/-- C7: the export produces the header row first, exactly one row per
active point (so zero points give only the header), each data row being
the point's id, its two coordinates, and its full sampled series (3 +
number-of-wavelengths cells wide). -/
theorem export_rows_spec (ds : GriddedDataset) (d : Columns)
    (hy : d.y.length = d.x.length) (hid : d.id.length = d.x.length)
    (hwf : dsWF ds) (hlon : ds.longitude ≠ []) (hlat : ds.latitude ≠ []) :
    (export_rows ds d).head? = some (csvHeader ds.wavelengths) ∧
      (export_rows ds d).length = d.x.length + 1 ∧
      (export_rows ds d).tail = (zip3 d.x d.y d.id).map (pointRow ds) ∧
      ListAll (fun r => r.length = 3 + ds.wavelengths.length)
        (export_rows ds d).tail ∧
      (d.x = [] → export_rows ds d = [csvHeader ds.wavelengths]) := by
  refine ⟨rfl, ?_, rfl, ?_, ?_⟩
  · simp only [export_rows, List.length_cons, List.length_map]
    rw [zip3_length d.x d.y d.id hy hid]
  · show ListAll _ ((zip3 d.x d.y d.id).map (pointRow ds))
    refine listAll_map _ _ _ (fun p => ?_)
    simp only [pointRow, List.length_cons, List.length_map]
    rw [sample_length ds p.1 p.2.1 hwf hlon hlat]
    omega
  · intro hx
    cases d with
    | mk dx dy did =>
        simp only at hx
        subst hx
        simp [export_rows, zip3]

theorem export_rows_spec_witness :
    (((⟨[0], [1], [7]⟩ : Columns).y.length =
          (⟨[0], [1], [7]⟩ : Columns).x.length) ∧
        ((⟨[0], [1], [7]⟩ : Columns).id.length =
          (⟨[0], [1], [7]⟩ : Columns).x.length) ∧
        dsWF dsEx ∧ dsEx.longitude ≠ [] ∧ dsEx.latitude ≠ []) ∧
      ((export_rows dsEx ⟨[0], [1], [7]⟩).head? =
          some (csvHeader dsEx.wavelengths) ∧
        (export_rows dsEx ⟨[0], [1], [7]⟩).length =
          (⟨[0], [1], [7]⟩ : Columns).x.length + 1 ∧
        (export_rows dsEx ⟨[0], [1], [7]⟩).tail =
          (zip3 [(0 : ℚ)] [(1 : ℚ)] [(7 : ℤ)]).map (pointRow dsEx) ∧
        ListAll (fun r => r.length = 3 + dsEx.wavelengths.length)
          (export_rows dsEx ⟨[0], [1], [7]⟩).tail ∧
        ((⟨[0], [1], [7]⟩ : Columns).x = [] →
          export_rows dsEx ⟨[0], [1], [7]⟩ = [csvHeader dsEx.wavelengths])) :=
  ⟨⟨by decide, by decide, by decide, by decide, by decide⟩,
    export_rows_spec dsEx ⟨[0], [1], [7]⟩ (by decide) (by decide)
      (by decide) (by decide) (by decide)⟩

/-! ## Colour gradient helpers (05_SB_Vineyards)

Embeds `interpolate_hex` and `create_gradient`.  Python `int(s, 16)`
raises on a malformed slice, so parsing returns `Option`; a failure
anywhere propagates, as the exception would. -/

/-- Value of one hexadecimal digit, as accepted by `int(_, 16)`. -/
def hexDigitVal (c : Char) : Option Nat :=
  if '0' ≤ c ∧ c ≤ '9' then some (c.toNat - 48)
  else if 'a' ≤ c ∧ c ≤ 'f' then some (c.toNat - 87)
  else if 'A' ≤ c ∧ c ≤ 'F' then some (c.toNat - 55)
  else none

/-- Base-16 digits accumulation; any bad character fails. -/
def int16Aux : List Char → Nat → Option Nat
  | [], acc => some acc
  | c :: cs, acc =>
      match hexDigitVal c with
      | some v => int16Aux cs (16 * acc + v)
      | none => none

/-- Python `int(s, 16)` on a character list (empty input raises). -/
def int16 : List Char → Option Nat
  | [] => none
  | cs => int16Aux cs 0

/-- Python `int(s[i:i+2], 16)`. -/
def parse2 (s : String) (i : Nat) : Option Nat :=
  int16 ((s.toList.drop i).take 2)

/-- Python `[int(s[i:i+2], 16) for i in (1, 3, 5)]`. -/
def parseRGB (s : String) : Option (List ℤ) :=
  match parse2 s 1, parse2 s 3, parse2 s 5 with
  | some r, some g, some b => some [(r : ℤ), (g : ℤ), (b : ℤ)]
  | _, _, _ => none

/-- A parsable colour string. -/
def isHexColor (s : String) : Prop := (parseRGB s).isSome = true

instance (s : String) : Decidable (isHexColor s) :=
  inferInstanceAs (Decidable (_ = true))

/-- Python `int(q)`: truncation toward zero. -/
def pyTrunc (q : ℚ) : ℤ := if q < 0 then ⌈q⌉ else ⌊q⌋

/-- One lowercase hexadecimal digit character. -/
def hexDigitChar (n : Nat) : Char :=
  if n < 10 then Char.ofNat (48 + n) else Char.ofNat (87 + n)

/-- Python format `{:02x}` for the byte values arising here. -/
def toHex2 (n : Nat) : String :=
  String.mk [hexDigitChar (n / 16 % 16), hexDigitChar (n % 16)]

/-- The `interpolate_hex` helper: parse both endpoint colours, blend
each channel by `r`, truncate, and reformat as `#rrggbb`. -/
def interpolate_hex (hex1 hex2 : String) (r : ℚ) : Option String :=
  match parseRGB hex1, parseRGB hex2 with
  | some rgb1, some rgb2 =>
      let rgb := (List.range 3).map (fun i =>
        pyTrunc ((rgb1.getD i 0 : ℚ) +
          ((rgb2.getD i 0 : ℚ) - (rgb1.getD i 0 : ℚ)) * r))
      some ("#" ++ String.join (rgb.map (fun v => toHex2 v.toNat)))
  | _, _ => none

/-- Sequence a list of optional values; any failure propagates. -/
def seqOption {α : Type} : List (Option α) → Option (List α)
  | [] => some []
  | o :: os => o.bind (fun a => (seqOption os).map (fun as => a :: as))

/-- The interpolation results of the two nested loops of
`create_gradient`, in order. -/
def gradientSegs (colors : List String) (steps : Nat) :
    List (Option String) :=
  ((List.range (colors.length - 1)).map (fun (i : Nat) =>
    (List.range steps).map (fun (j : Nat) =>
      interpolate_hex (colors.getD i "") (colors.getD (i + 1) "")
        ((j : ℚ) / (steps : ℚ))))).flatten

/-- The `create_gradient` function: all interpolated colours of the
nested loops followed by the literal last input colour (`colors[-1]`
raises on an empty list). -/
def create_gradient (colors : List String) (steps : Nat) :
    Option (List String) :=
  match colors.getLast? with
  | none => none
  | some last =>
      match seqOption (gradientSegs colors steps) with
      | none => none
      | some grad => some (grad ++ [last])

theorem seqOption_length {α : Type} (l : List (Option α)) (as : List α)
    (h : seqOption l = some as) : as.length = l.length := by
  induction l generalizing as with
  | nil =>
      simp only [seqOption, Option.some.injEq] at h
      simp [← h]
  | cons o os ih =>
      cases o with
      | none => simp [seqOption] at h
      | some a =>
          cases hs : seqOption os with
          | none => simp [seqOption, hs] at h
          | some bs =>
              simp [seqOption, hs] at h
              rw [← h]
              simp [ih bs hs]

theorem seqOption_isSome {α : Type} (l : List (Option α))
    (h : ListAll (fun o => o.isSome = true) l) :
    (seqOption l).isSome = true := by
  induction l with
  | nil => rfl
  | cons o os ih =>
      obtain ⟨h1, h2⟩ := h
      cases o with
      | none => cases h1
      | some a =>
          have hsome := ih h2
          cases hs : seqOption os with
          | none => rw [hs] at hsome; cases hsome
          | some bs => simp [seqOption, hs]

theorem interpolate_hex_isSome (c1 c2 : String) (r : ℚ)
    (h1 : isHexColor c1) (h2 : isHexColor c2) :
    (interpolate_hex c1 c2 r).isSome = true := by
  unfold isHexColor at h1 h2
  cases hp1 : parseRGB c1 with
  | none => rw [hp1] at h1; cases h1
  | some rgb1 =>
      cases hp2 : parseRGB c2 with
      | none => rw [hp2] at h2; cases h2
      | some rgb2 => simp [interpolate_hex, hp1, hp2]

theorem listAll_of_forall_mem {α : Type} {p : α → Prop} (l : List α)
    (h : ∀ a ∈ l, p a) : ListAll p l := by
  induction l with
  | nil => trivial
  | cons a as ih =>
      exact ⟨h a (List.mem_cons_self a as),
        ih (fun b hb => h b (List.mem_cons_of_mem a hb))⟩

theorem gradientSegs_all_isSome (colors : List String) (steps : Nat)
    (hv : ListAll isHexColor colors) :
    ListAll (fun o => Option.isSome o = true) (gradientSegs colors steps) := by
  refine listAll_of_forall_mem _ (fun o ho => ?_)
  unfold gradientSegs at ho
  rcases List.mem_flatten.mp ho with ⟨inner, hinner, ho2⟩
  rcases List.mem_map.mp hinner with ⟨i, hi, rfl⟩
  rcases List.mem_map.mp ho2 with ⟨j, _, rfl⟩
  have hilt : i < colors.length - 1 := List.mem_range.mp hi
  have hc1 : colors.getD i "" ∈ colors := getD_mem _ _ _ (by omega)
  have hc2 : colors.getD (i + 1) "" ∈ colors := getD_mem _ _ _ (by omega)
  exact interpolate_hex_isSome _ _ _
    (listAll_mem hv hc1) (listAll_mem hv hc2)

theorem sum_map_const_nat {α : Type} (l : List α) (s : Nat) :
    (l.map (fun _ => s)).sum = l.length * s := by
  induction l with
  | nil => simp
  | cons a as ih =>
      simp only [List.map_cons, List.sum_cons, List.length_cons, ih,
        Nat.succ_mul]
      omega

theorem gradientSegs_length (colors : List String) (steps : Nat) :
    (gradientSegs colors steps).length = (colors.length - 1) * steps := by
  unfold gradientSegs
  rw [List.length_flatten, List.map_map]
  have hmap : (List.length ∘ fun (i : Nat) =>
      (List.range steps).map (fun (j : Nat) =>
        interpolate_hex (colors.getD i "") (colors.getD (i + 1) "")
          ((j : ℚ) / (steps : ℚ)))) = fun _ => steps := by
    funext i
    simp
  rw [hmap, sum_map_const_nat, List.length_range]

/-- C9: on at least two parsable colours and a positive step count,
`create_gradient` succeeds, returns exactly
`(number of colours - 1) * steps + 1` strings, and its last element is
the last input colour. -/
theorem create_gradient_spec (colors : List String) (steps : Nat)
    (h2 : 2 ≤ colors.length) (_hs : 0 < steps)
    (hv : ListAll isHexColor colors) :
    (create_gradient colors steps).isSome = true ∧
      (create_gradient colors steps).map List.length =
        some ((colors.length - 1) * steps + 1) ∧
      (create_gradient colors steps).bind List.getLast? =
        colors.getLast? := by
  have hne : colors ≠ [] := by
    intro h; rw [h] at h2; simp at h2
  cases hlast : colors.getLast? with
  | none => exact absurd (List.getLast?_isSome.mpr hne) (by rw [hlast]; simp)
  | some last =>
      have hseq := seqOption_isSome _ (gradientSegs_all_isSome colors steps hv)
      cases hg : seqOption (gradientSegs colors steps) with
      | none => rw [hg] at hseq; cases hseq
      | some grad =>
          have hglen : grad.length = (colors.length - 1) * steps := by
            rw [seqOption_length _ _ hg, gradientSegs_length]
          have hcg : create_gradient colors steps = some (grad ++ [last]) := by
            unfold create_gradient
            rw [hlast, hg]
          refine ⟨by rw [hcg]; rfl, ?_, ?_⟩
          · rw [hcg]
            simp [hglen]
          · rw [hcg]
            simp [List.getLast?_concat]

theorem create_gradient_spec_witness :
    (2 ≤ (["#000000", "#ffffff"] : List String).length ∧ 0 < 2 ∧
        ListAll isHexColor ["#000000", "#ffffff"]) ∧
      ((create_gradient ["#000000", "#ffffff"] 2).isSome = true ∧
        (create_gradient ["#000000", "#ffffff"] 2).map List.length =
          some (((["#000000", "#ffffff"] : List String).length - 1) * 2 + 1) ∧
        (create_gradient ["#000000", "#ffffff"] 2).bind List.getLast? =
          (["#000000", "#ffffff"] : List String).getLast?) :=
  ⟨⟨by decide, by decide, by decide⟩,
    create_gradient_spec ["#000000", "#ffffff"] 2 (by decide) (by decide)
      (by decide)⟩

/-! ## The vineyard click handler (05_SB_Vineyards)

Embeds `interactive_click`: on a full coordinate pair it samples the
four projected rasters and appends a record to `clicked_values`; in all
cases it returns the rendered point at the given coordinates. -/

/-- A single-band raster with its coordinate axes
(`vals[yIdx][xIdx]`). -/
structure Raster where
  xs : List ℚ
  ys : List ℚ
  vals : List (List ℚ)
deriving DecidableEq, Repr

/-- Nearest-neighbour value lookup (`sel(x=x, y=y, method="nearest")`,
then `.values`). -/
def rasterValue (r : Raster) (x y : ℚ) : ℚ :=
  (r.vals.getD (nearestIdx r.ys y) []).getD (nearestIdx r.xs x) 0

/-- The four projected rasters read by the click handler. -/
structure VineyardEnv where
  ndvi : Raster
  st : Raster
  et : Raster
  ewt : Raster
deriving DecidableEq, Repr

/-- One record appended to `clicked_values`. -/
structure ClickRecord where
  lon : ℚ
  lat : ℚ
  ndvi : ℚ
  st : ℚ
  et : ℚ
  ewt : ℚ
deriving DecidableEq, Repr

/-- The returned `hv.Points((x, y))` element. -/
structure HvPoint where
  x : Option ℚ
  y : Option ℚ
deriving DecidableEq, Repr

/-- The `interactive_click` handler: the body runs only when
`None not in [x, y]`; the rendered point is returned either way. -/
def interactive_click (env : VineyardEnv) (x y : Option ℚ)
    (clicked_values : List ClickRecord) : List ClickRecord × HvPoint :=
  match x, y with
  | some xv, some yv =>
      (clicked_values ++
        [⟨xv, yv, rasterValue env.ndvi xv yv, rasterValue env.st xv yv,
          rasterValue env.et xv yv, rasterValue env.ewt xv yv⟩],
        ⟨x, y⟩)
  | _, _ => (clicked_values, ⟨x, y⟩)

/-- C10: when either coordinate is `None`, the click handler leaves the
accumulated `clicked_values` unchanged, and still returns the rendered
point carrying the given coordinates. -/
theorem interactive_click_none_frame (env : VineyardEnv)
    (x y : Option ℚ) (clicked : List ClickRecord)
    (h : x = none ∨ y = none) :
    (interactive_click env x y clicked).1 = clicked ∧
      (interactive_click env x y clicked).2 = ⟨x, y⟩ := by
  rcases h with h | h
  · subst h
    cases y <;> exact ⟨rfl, rfl⟩
  · subst h
    cases x <;> exact ⟨rfl, rfl⟩

theorem interactive_click_none_frame_witness :
    (((none : Option ℚ) = none ∨ (some (1 : ℚ) : Option ℚ) = none) ∧
        (interactive_click ⟨⟨[], [], []⟩, ⟨[], [], []⟩, ⟨[], [], []⟩,
            ⟨[], [], []⟩⟩ none (some 1) []).1 = [] ∧
        (interactive_click ⟨⟨[], [], []⟩, ⟨[], [], []⟩, ⟨[], [], []⟩,
            ⟨[], [], []⟩⟩ none (some 1) []).2 = ⟨none, some 1⟩) :=
  ⟨Or.inl rfl,
    interactive_click_none_frame _ none (some 1) [] (Or.inl rfl)⟩

/-! ## gamma_adjust

Embeds the brightness-adjustment function over an idealised IEEE value
domain: a real number, an infinity, or NaN.  `gamma` is computed with
`math.log` (which raises `ValueError` off the positive domain) and a
Python float division (which raises `ZeroDivisionError` on a zero
denominator); the array pipeline itself
(`np.power(np.nan_to_num(array, nan=1), np.nan_to_num(gamma, nan=1))
.clip(0, 1)` and the optional final `np.nan_to_num(_, nan=1)`) never
raises. -/

/-- An IEEE-style extended value. -/
inductive EF where
  | nan : EF
  | inf : EF
  | ninf : EF
  | fin : ℝ → EF

/-- Largest finite double, the default replacement `np.nan_to_num`
uses for infinities. -/
noncomputable def maxFloat : ℝ := 1.7976931348623157e308

/-- Value of `np.nan_to_num(v, nan = c)`: NaN becomes `c`, infinities
become the extreme finite doubles, finite values pass through.  The
result is always finite. -/
noncomputable def nanToNum (c : ℝ) : EF → ℝ
  | EF.nan => c
  | EF.inf => maxFloat
  | EF.ninf => -maxFloat
  | EF.fin x => x

/-- The finite entries of a list of extended values. -/
noncomputable def finsOf (xs : List EF) : List ℝ :=
  xs.filterMap (fun v => match v with | EF.fin x => some x | _ => none)

/-- Does the list contain a positive infinity? -/
def hasInf (xs : List EF) : Bool :=
  xs.any (fun v => match v with | EF.inf => true | _ => false)

/-- Does the list contain a negative infinity? -/
def hasNinf (xs : List EF) : Bool :=
  xs.any (fun v => match v with | EF.ninf => true | _ => false)

/-- Value of `np.nanmean`: the mean of the non-NaN entries; NaN when
there are none or when both infinities occur; the shared infinity when
only one occurs. -/
noncomputable def nanmean (xs : List EF) : EF :=
  if hasInf xs && hasNinf xs then EF.nan
  else if hasInf xs then EF.inf
  else if hasNinf xs then EF.ninf
  else
    match finsOf xs with
    | [] => EF.nan
    | fs => EF.fin (fs.sum / fs.length)

/-- Python `math.log`: raises `ValueError` off the positive domain,
propagates NaN, sends positive infinity to itself. -/
noncomputable def pylog : EF → Except PyErr EF
  | EF.fin x => if 0 < x then .ok (EF.fin (Real.log x)) else .error PyErr.valueError
  | EF.nan => .ok EF.nan
  | EF.inf => .ok EF.inf
  | EF.ninf => .error PyErr.valueError

/-- Python float division: raises `ZeroDivisionError` on a zero (or
signed-zero-free here: exactly zero) finite denominator, propagates
NaN, and follows the IEEE rules for infinities. -/
noncomputable def pydiv : EF → EF → Except PyErr EF
  | EF.nan, _ => .ok EF.nan
  | _, EF.nan => .ok EF.nan
  | EF.fin a, EF.fin b =>
      if b = 0 then .error PyErr.zeroDivisionError else .ok (EF.fin (a / b))
  | EF.fin _, EF.inf => .ok (EF.fin 0)
  | EF.fin _, EF.ninf => .ok (EF.fin 0)
  | EF.inf, EF.fin b =>
      if b = 0 then .error PyErr.zeroDivisionError
      else if b < 0 then .ok EF.ninf else .ok EF.inf
  | EF.ninf, EF.fin b =>
      if b = 0 then .error PyErr.zeroDivisionError
      else if b < 0 then .ok EF.inf else .ok EF.ninf
  | EF.inf, _ => .ok EF.nan
  | EF.ninf, _ => .ok EF.nan

open Classical in
/-- Value of `np.power(b, g)` on the finite inputs produced by
`np.nan_to_num`: the real power for a positive base; the IEEE special
cases at zero; for a negative base, the real power when the exponent is
(mathematically) an integer and NaN otherwise. -/
noncomputable def npPow (b g : ℝ) : EF :=
  if 0 < b then EF.fin (b ^ g)
  else if b = 0 then
    (if 0 < g then EF.fin 0 else if g = 0 then EF.fin 1 else EF.inf)
  else if _h : ∃ n : ℤ, (n : ℝ) = g then EF.fin (b ^ ⌊g⌋) else EF.nan

/-- Value of `np.clip(_, 0, 1)`: NaN passes through, infinities clamp
to the bounds, finite values clamp into the unit interval. -/
noncomputable def clip01 : EF → EF
  | EF.nan => EF.nan
  | EF.inf => EF.fin 1
  | EF.ninf => EF.fin 0
  | EF.fin x => EF.fin (min (max x 0) 1)

/-- The exponent `math.log(bright) / math.log(np.nanmean(array))`. -/
noncomputable def gamma_of (bright : ℝ) (array : List EF) :
    Except PyErr EF :=
  match pylog (EF.fin bright) with
  | .error e => .error e
  | .ok lb =>
      match pylog (nanmean array) with
      | .error e => .error e
      | .ok lm => pydiv lb lm

/-- One array element of
`np.power(np.nan_to_num(array, nan=1), g).clip(0, 1)`. -/
noncomputable def scale_value (g : ℝ) (a : EF) : EF :=
  clip01 (npPow (nanToNum 1 a) g)

/-- The `gamma_adjust` function on the reflectance array: compute the
exponent, scale and clip every element, and with `white_background`
replace the remaining NaNs by 1. -/
noncomputable def gamma_adjust (bright : ℝ) (white_background : Bool)
    (array : List EF) : Except PyErr (List EF) :=
  match gamma_of bright array with
  | .error e => .error e
  | .ok gam =>
      let scaled := array.map (scale_value (nanToNum 1 gam))
      .ok (if white_background then
        scaled.map (fun v => EF.fin (nanToNum 1 v))
      else scaled)

/-- The value is a finite number inside the closed unit interval. -/
def inUnit : EF → Prop
  | EF.fin x => 0 ≤ x ∧ x ≤ 1
  | _ => False

theorem listAll_zip_map {α β : Type} (f : α → β) (p : α × β → Prop)
    (l : List α) (h : ∀ a, p (a, f a)) : ListAll p (l.zip (l.map f)) := by
  induction l with
  | nil => trivial
  | cons a as ih => exact ⟨h a, ih⟩

theorem inUnit_whiten_clip (v : EF) :
    inUnit (EF.fin (nanToNum 1 (clip01 v))) := by
  cases v with
  | nan => exact ⟨zero_le_one, le_refl 1⟩
  | inf => exact ⟨zero_le_one, le_refl 1⟩
  | ninf => exact ⟨le_refl 0, zero_le_one⟩
  | fin x =>
      refine ⟨le_min (le_max_right x 0) zero_le_one, min_le_right _ 1⟩

theorem scale_value_nan (g : ℝ) : scale_value g EF.nan = EF.fin 1 := by
  show clip01 (npPow (nanToNum 1 EF.nan) g) = EF.fin 1
  have h1 : nanToNum 1 EF.nan = 1 := rfl
  rw [h1]
  have h2 : npPow 1 g = EF.fin 1 := by
    unfold npPow
    rw [if_pos one_pos, Real.one_rpow]
  rw [h2]
  show EF.fin (min (max 1 0) 1) = EF.fin 1
  rw [max_eq_left zero_le_one, min_self]

/-- C8 amended: whenever `gamma_adjust` with `white_background=True`
returns an array, every value of it lies in the closed unit interval,
none of its values is NaN, and every position that was NaN in the input
holds exactly 1. -/
theorem gamma_adjust_white_unit (bright : ℝ) (array out : List EF)
    (h : gamma_adjust bright true array = Except.ok out) :
    ListAll inUnit out ∧ ListAll (fun v => v ≠ EF.nan) out ∧
      ListAll (fun p => p.1 = EF.nan → p.2 = EF.fin 1) (array.zip out) := by
  cases hg : gamma_of bright array with
  | error e => rw [gamma_adjust, hg] at h; cases h
  | ok gam =>
      simp only [gamma_adjust, hg, if_true, List.map_map,
        Except.ok.injEq] at h
      subst h
      refine ⟨?_, ?_, ?_⟩
      · exact listAll_map _ _ _ (fun a => inUnit_whiten_clip _)
      · exact listAll_map _ _ _ (fun a hcon => EF.noConfusion hcon)
      · refine listAll_zip_map _ _ _ (fun a => ?_)
        intro ha
        change a = EF.nan at ha
        subst ha
        change EF.fin (nanToNum 1 (scale_value (nanToNum 1 gam) EF.nan)) =
          EF.fin 1
        rw [scale_value_nan]
        rfl

theorem pylog_pos (x : ℝ) (hx : 0 < x) :
    pylog (EF.fin x) = .ok (EF.fin (Real.log x)) := by
  show (if 0 < x then Except.ok (EF.fin (Real.log x))
    else Except.error PyErr.valueError) = _
  rw [if_pos hx]

/-- The counterexample array: a negative reflectance value next to a
value that makes the mean 4. -/
noncomputable def cexArray : List EF := [EF.fin (-(1 / 2)), EF.fin (17 / 2)]

/-- The exponent `gamma_adjust` computes on `cexArray` with the default
brightness 0.2. -/
noncomputable def gstar : ℝ := Real.log (1 / 5) / Real.log 4

theorem nanmean_cex : nanmean cexArray = EF.fin 4 := by
  show nanmean [EF.fin (-(1 / 2)), EF.fin (17 / 2)] = EF.fin 4
  show EF.fin ((-(1 / 2) + (17 / 2 + 0)) / ((2 : ℕ) : ℝ)) = EF.fin 4
  norm_num

theorem gamma_of_cex : gamma_of (1 / 5) cexArray = .ok (EF.fin gstar) := by
  unfold gamma_of
  rw [pylog_pos (1 / 5) (by norm_num), nanmean_cex,
    pylog_pos 4 (by norm_num)]
  show (if Real.log 4 = 0 then Except.error PyErr.zeroDivisionError
    else Except.ok (EF.fin (Real.log (1 / 5) / Real.log 4))) =
      Except.ok (EF.fin gstar)
  rw [if_neg (Real.log_pos (by norm_num : (1 : ℝ) < 4)).ne']
  rfl

theorem gstar_btwn : -2 < gstar ∧ gstar < -1 := by
  have h4 : (0 : ℝ) < Real.log 4 := Real.log_pos (by norm_num)
  have h45 : Real.log 4 < Real.log 5 :=
    Real.log_lt_log (by norm_num) (by norm_num)
  have h516 : Real.log 5 < Real.log 16 :=
    Real.log_lt_log (by norm_num) (by norm_num)
  have h16 : Real.log 16 = 2 * Real.log 4 := by
    rw [show (16 : ℝ) = 4 ^ (2 : ℕ) by norm_num, Real.log_pow]
    push_cast
    ring
  have hinv : Real.log (1 / 5) = -Real.log 5 := by
    rw [one_div, Real.log_inv]
  constructor
  · unfold gstar
    rw [hinv, lt_div_iff₀ h4]
    linarith
  · unfold gstar
    rw [hinv, div_lt_iff₀ h4]
    linarith

theorem gstar_not_int : ¬∃ n : ℤ, (n : ℝ) = gstar := by
  rintro ⟨n, hn⟩
  obtain ⟨h1, h2⟩ := gstar_btwn
  rw [← hn] at h1 h2
  have hi1 : (-2 : ℤ) < n := by exact_mod_cast h1
  have hi2 : n < -1 := by exact_mod_cast h2
  omega

theorem npPow_neg_half : npPow (-(1 / 2) : ℝ) gstar = EF.nan := by
  unfold npPow
  rw [if_neg (by norm_num), if_neg (by norm_num), dif_neg gstar_not_int]

/-- C8 counterexample: with the default brightness 0.2 and
`white_background=False`, the input array `[-1/2, 17/2]` (mean 4, so
gamma is `log(0.2)/log(4)`, strictly between -2 and -1 and therefore
not an integer) makes `np.power` produce NaN at the negative entry;
`clip` keeps NaN, so the first value written back is NaN, which does
not lie in the unit interval. -/
theorem gamma_adjust_not_unit_counterexample :
    (gamma_adjust (1 / 5) false cexArray).map List.head? =
        Except.ok (some EF.nan) ∧ ¬inUnit EF.nan := by
  constructor
  · have h1 : gamma_adjust (1 / 5) false cexArray =
        Except.ok (cexArray.map (scale_value gstar)) := by
      unfold gamma_adjust
      rw [gamma_of_cex]
      rfl
    have hhead : scale_value gstar (EF.fin (-(1 / 2))) = EF.nan := by
      show clip01 (npPow (nanToNum 1 (EF.fin (-(1 / 2)))) gstar) = EF.nan
      have hn : nanToNum 1 (EF.fin (-(1 / 2))) = (-(1 / 2) : ℝ) := rfl
      rw [hn, npPow_neg_half]
      rfl
    have h2 : cexArray.map (scale_value gstar) =
        [EF.nan, scale_value gstar (EF.fin (17 / 2))] := by
      show [scale_value gstar (EF.fin (-(1 / 2))),
        scale_value gstar (EF.fin (17 / 2))] = _
      rw [hhead]
    rw [h1, h2]
    rfl
  · exact fun hcon => hcon

theorem gamma_adjust_white_unit_witness :
    gamma_adjust (1 / 5) true [EF.nan] = Except.ok [EF.fin 1] ∧
      (ListAll inUnit [EF.fin 1] ∧
        ListAll (fun v => v ≠ EF.nan) [EF.fin 1] ∧
        ListAll (fun p => p.1 = EF.nan → p.2 = EF.fin 1)
          ([EF.nan].zip [EF.fin 1])) := by
  have hm : nanmean [EF.nan] = EF.nan := rfl
  have hgam : gamma_of (1 / 5) [EF.nan] = .ok EF.nan := by
    unfold gamma_of
    rw [pylog_pos (1 / 5) (by norm_num), hm]
    rfl
  have heval : gamma_adjust (1 / 5) true [EF.nan] = Except.ok [EF.fin 1] := by
    unfold gamma_adjust
    rw [hgam]
    show Except.ok
        [EF.fin (nanToNum 1 (scale_value (nanToNum 1 EF.nan) EF.nan))] =
      Except.ok [EF.fin 1]
    rw [scale_value_nan]
    rfl
  exact ⟨heval, gamma_adjust_white_unit (1 / 5) [EF.nan] [EF.fin 1] heval⟩

end Vitals
